import Mathlib

/-!
Verification of the Home Assistant dashboard deployment scripts.

The repository holds two Python scripts:
* `deploy/deploy_dashboard.py` — the current deployer (production / stage /
  promote modes, theme handling, API-based reload);
* `deploy_dashboard.py` — the legacy deployer (production only).

This file gives a shallow embedding of both scripts.  Strings are modelled as
`List Char`; the remote side (SSH/SFTP/exec) is modelled by an oracle `World`
that fixes the outcome of every external operation, and each run produces an
`Outcome` (exit behaviour) together with a trace of externally visible
`Event`s, in the order the script performs them.
-/

/-! ### String primitives

`Python str.replace`, `os.path.dirname` / `basename` / `splitext` (POSIX
semantics, the platform the scripts target) are modelled on `List Char`.
-/

/-- `startsWith pat s` : `pat` is a prefix of `s` (decidable, executable). -/
def startsWith (pat s : List Char) : Bool :=
  s.take pat.length == pat

/-- `matchAt s pat i` : `pat` occurs in `s` starting at index `i`. -/
def matchAt (s pat : List Char) (i : Nat) : Bool :=
  startsWith pat (s.drop i)

/-- `occursB pat s` : `pat` occurs somewhere in `s`. -/
def occursB (pat : List Char) : List Char → Bool
  | [] => startsWith pat []
  | c :: cs => startsWith pat (c :: cs) || occursB pat cs

/-- Python `s.replace(pat, rep, 1)` for a non-empty pattern: replace the
leftmost occurrence of `pat`, copy everything else verbatim. -/
def replFirst (pat rep : List Char) : List Char → List Char
  | [] => []
  | c :: cs =>
    if startsWith pat (c :: cs) then rep ++ List.drop pat.length (c :: cs)
    else c :: replFirst pat rep cs

/-- Fuelled left-to-right scan for `str.replace` with unbounded count:
at each position either the (non-empty) pattern matches and is replaced,
the scan resuming after the matched block, or one character is copied. -/
def replAllF (pat rep : List Char) : Nat → List Char → List Char
  | _, [] => []
  | 0, s => s
  | n + 1, c :: cs =>
    if startsWith pat (c :: cs) then
      rep ++ replAllF pat rep n (List.drop pat.length (c :: cs))
    else c :: replAllF pat rep n cs

/-- Python `s.replace(pat, rep)` for a non-empty pattern (the fuel
`s.length` never runs out: every step consumes at least one character). -/
def replAll (pat rep s : List Char) : List Char :=
  replAllF pat rep s.length s

/-- Index of the last occurrence of `c` in a list (Python `str.rfind`,
with `none` for "not found" instead of `-1`). -/
def lastIdx (c : Char) : List Char → Option Nat
  | [] => none
  | x :: xs =>
    match lastIdx c xs with
    | some i => some (i + 1)
    | none => if x = c then some 0 else none

/-- `posixpath.basename`: everything after the last `/` (the whole string
when there is no `/`). -/
def basename (p : List Char) : List Char :=
  (p.reverse.takeWhile (fun c => c ≠ '/')).reverse

/-- `posixpath.dirname`: everything up to the last `/`; the result keeps no
trailing slash unless it consists only of slashes; empty when there is no
`/`. -/
def dirname (p : List Char) : List Char :=
  let head := (p.reverse.dropWhile (fun c => c ≠ '/')).reverse
  if head ≠ [] ∧ ¬ head.all (fun c => c = '/') then
    (head.reverse.dropWhile (fun c => c = '/')).reverse
  else head

/-- `posixpath.splitext`: split off the extension at the last dot of the
final path component, provided some earlier character of that component is
not a dot (so `.bashrc` has no extension).  The returned extension includes
the leading dot. -/
def splitext (p : List Char) : List Char × List Char :=
  match lastIdx '.' p with
  | none => (p, [])
  | some d =>
    let fileStart :=
      match lastIdx '/' p with
      | none => 0
      | some s => s + 1
    if fileStart ≤ d ∧ ((p.take d).drop fileStart).any (fun c => c ≠ '.') then
      (p.take d, p.drop d)
    else (p, [])

/-- Python truthiness of an `Optional[str]` command-line value: `None` and
the empty string are falsy. -/
def truthy : Option (List Char) → Bool
  | none => false
  | some s => !s.isEmpty

example : basename "/config/lovelace/my-dashboard.yaml".toList = "my-dashboard.yaml".toList := by decide
example : dirname "/config/lovelace/my-dashboard.yaml".toList = "/config/lovelace".toList := by decide
example : dirname "/x".toList = "/".toList := by decide
example : dirname "x".toList = [] := by decide
example : splitext "my-dashboard.yaml".toList = ("my-dashboard".toList, ".yaml".toList) := by decide
example : splitext ".bashrc".toList = (".bashrc".toList, []) := by decide
example : splitext "a.b.c".toList = ("a.b".toList, ".c".toList) := by decide
example : splitext "noext".toList = ("noext".toList, []) := by decide
example : replFirst "ab".toList "X".toList "zababz".toList = "zXabz".toList := by decide
example : replAll "ab".toList "X".toList "zababz".toList = "zXXz".toList := by decide
example : replAll "aa".toList "b".toList "aaa".toList = "ba".toList := by decide

/-! ### Execution model

`World` fixes the result of every external operation (local filesystem,
SSH connect, SFTP uploads, remote command exit statuses).  A run yields an
`Outcome` and the ordered list of externally visible `Event`s.
`exec_command` failures (timeouts, channel errors) are modelled by a
non-zero exit status: at every call site the script treats the two
identically (backup ignores the status; the reload loops treat an
exception exactly like a non-zero exit and move on).
-/

/-- Externally visible steps of a run, in program order. -/
inductive Event
  | connect
  | execCmd (cmd : List Char)
  | putFile (localPath remotePath : List Char)
  | putContent (content remotePath : List Char)
  | summary (modeLabel : List Char) (deployed : List (List Char))
  | manualReloadHint
  | disconnect
deriving DecidableEq, Repr

/-- `true` for events that touch the remote host (SSH/SFTP traffic);
`false` for purely local console output. -/
def Event.isRemoteOp : Event → Bool
  | .connect => true
  | .execCmd _ => true
  | .putFile _ _ => true
  | .putContent _ _ => true
  | .disconnect => true
  | .summary _ _ => false
  | .manualReloadHint => false

/-- How the process terminates: normal end (exit status 0), an explicit
`sys.exit(1)`, or an uncaught exception (non-zero interpreter exit). -/
inductive Outcome
  | success
  | exited (code : Nat)
  | crash
deriving DecidableEq, Repr

/-- Oracle fixing every external interaction of a run. -/
structure World where
  fileExists : List Char → Bool
  connectOk : Bool
  putOk : List Char → List Char → Bool
  putContentOk : List Char → List Char → Bool
  readFile : List Char → List Char
  execExit : List Char → Nat

/-- The shell command both scripts run to back up a remote file
(`backup_path = f"{remote_path}.backup"`). -/
def backupShellCmd (remote_path : List Char) : List Char :=
  "test -f ".toList ++ remote_path ++ " && cp ".toList ++ remote_path ++
    " ".toList ++ remote_path ++
    ".backup || echo \x27No existing file to backup\x27".toList

/-- The `for cmd in commands:` fallback loop shared verbatim by both
scripts: run each command, stop at the first zero exit status; an
exception behaves like a non-zero exit (`continue`). -/
def tryCommands (w : World) : List (List Char) → Bool × List Event
  | [] => (false, [])
  | c :: rest =>
    if w.execExit c = 0 then (true, [Event.execCmd c])
    else
      let r := tryCommands w rest
      (r.1, Event.execCmd c :: r.2)

namespace Deploy

/-- `HomeAssistantDeployer.DEFAULT_DASHBOARDS_DIR` in `deploy/deploy_dashboard.py`. -/
def DEFAULT_DASHBOARDS_DIR : List Char := "/config/lovelace".toList

/-- `HomeAssistantDeployer.DEFAULT_DASHBOARD_FILE` in `deploy/deploy_dashboard.py`. -/
def DEFAULT_DASHBOARD_FILE : List Char := "my-dashboard.yaml".toList

/-- `HomeAssistantDeployer.PROD_THEME_NAME`. -/
def PROD_THEME_NAME : List Char := "My Dashboard Theme".toList

/-- `HomeAssistantDeployer.STAGING_THEME_NAME`. -/
def STAGING_THEME_NAME : List Char := "My Dashboard Theme - Staging".toList

/-- The `curl` command string `reload_yaml_config` builds for the HA REST
API reload call. -/
def apiReloadCmd (token : List Char) : List Char :=
  "curl -sf -X POST -H \"Authorization: Bearer ".toList ++ token ++
    "\" -H \"Content-Type: application/json\" http://localhost:8123/api/services/homeassistant/reload_core_config".toList

/-- The `curl` command string `_browser_refresh` builds. -/
def browserRefreshCmd (token : List Char) : List Char :=
  "curl -sf -X POST -H \"Authorization: Bearer ".toList ++ token ++
    "\" -H \"Content-Type: application/json\" http://localhost:8123/api/services/browser_mod/refresh".toList

/-- First CLI fallback reload command (Home Assistant OS installs). -/
def cmdHassio : List Char := "hassio homeassistant reload core_config".toList

/-- Second CLI fallback reload command (service-account installs). -/
def cmdSudo : List Char :=
  "sudo -u homeassistant -H /srv/homeassistant/bin/homeassistant --script reload_core_config".toList

/-- Third CLI fallback reload command (container installs). -/
def cmdDocker : List Char :=
  "docker exec homeassistant homeassistant --script reload_core_config".toList

/-- The fixed CLI fallback list of `reload_yaml_config`. -/
def fallbackCommands : List (List Char) := [cmdHassio, cmdSudo, cmdDocker]

/-- Parsed command-line arguments of `deploy/deploy_dashboard.py`
(after `argparse`; `none` = flag absent). -/
structure Args where
  host : List Char
  user : List Char
  key : Option (List Char)
  password : Option (List Char)
  port : Nat
  «local» : List Char
  remote : Option (List Char)
  theme : Bool
  theme_local : List Char
  theme_remote : Option (List Char)
  stage : Bool
  promote : Bool
  token : Option (List Char)
  no_reload : Bool
  no_backup : Bool

/-- `deploy_file`: re-check the local file, then one SFTP `put`
(a missing local file is caught and reported as failure with no upload). -/
def deploy_file (w : World) (local_file remote_path : List Char) : Bool × List Event :=
  if w.fileExists local_file then
    (w.putOk local_file remote_path, [Event.putFile local_file remote_path])
  else (false, [])

/-- `deploy_content`: one SFTP `putfo` of in-memory content. -/
def deploy_content (w : World) (content remote_path : List Char) : Bool × List Event :=
  (w.putContentOk content remote_path, [Event.putContent content remote_path])

/-- `backup_file`: one best-effort remote copy command; the exit status is
never inspected, so the method reports success. -/
def backup_file (_w : World) (remote_path : List Char) : Bool × List Event :=
  (true, [Event.execCmd (backupShellCmd remote_path)])

/-- `_browser_refresh`: with a (truthy) token, one best-effort `curl`; its
exit status only affects console output. -/
def _browser_refresh (_w : World) (token : Option (List Char)) : List Event :=
  if truthy token then [Event.execCmd (browserRefreshCmd (token.getD []))]
  else []

/-- The CLI-fallback part of `reload_yaml_config`: run the fixed command
list, stop at the first zero exit; when none succeeds, print the
manual-reload instructions and report failure. -/
def cliFallbackOutcome (w : World) : Bool × List Event :=
  let r := tryCommands w fallbackCommands
  if r.1 then r else (false, r.2 ++ [Event.manualReloadHint])

/-- `reload_yaml_config`: with a (truthy) token first try the REST API
call; on exit 0 fire the best-effort browser refresh and report success;
otherwise (or with no token) fall back to the CLI command list. -/
def reload_yaml_config (w : World) (token : Option (List Char)) : Bool × List Event :=
  if truthy token then
    let t := token.getD []
    if w.execExit (apiReloadCmd t) = 0 then
      (true, Event.execCmd (apiReloadCmd t) :: _browser_refresh w token)
    else
      let r := cliFallbackOutcome w
      (r.1, Event.execCmd (apiReloadCmd t) :: r.2)
  else cliFallbackOutcome w

/-- `main`, lines 300-301: default for `--remote`. -/
def resolvedRemote (a : Args) : List Char :=
  if truthy a.remote then a.remote.getD []
  else DEFAULT_DASHBOARDS_DIR ++ '/' :: DEFAULT_DASHBOARD_FILE

/-- `main`, lines 302-306: default for `--theme-remote`, derived from the
grandparent directory of the (resolved) dashboard remote path. -/
def resolvedThemeRemote (a : Args) : List Char :=
  if truthy a.theme_remote then a.theme_remote.getD []
  else
    let config_dir := dirname (dirname (resolvedRemote a))
    let theme_filename := basename a.theme_local
    config_dir ++ "/themes/".toList ++ theme_filename

/-- `main`, lines 336-342: staging dashboard remote path. -/
def stageDashboardRemote (remote : List Char) : List Char :=
  let dashboard_dir := dirname remote
  let remote_name := basename remote
  let se := splitext remote_name
  dashboard_dir ++ '/' :: (se.1 ++ "-staging".toList ++ se.2)

/-- `main`, lines 343-346: staging theme remote path. -/
def stageThemeRemote (theme_remote : List Char) : List Char :=
  let theme_dir := dirname theme_remote
  let theme_name := basename theme_remote
  let se := splitext theme_name
  theme_dir ++ '/' :: (se.1 ++ "-staging".toList ++ se.2)

/-- `main`, lines 349-353: staging dashboard content rewrite
(`str.replace`, every occurrence). -/
def dashboardTransform (content : List Char) : List Char :=
  replAll PROD_THEME_NAME STAGING_THEME_NAME content

/-- `main`, lines 365-370: staging theme content rewrite
(`str.replace` with count 1, colon-suffixed markers). -/
def themeTransform (content : List Char) : List Char :=
  replFirst (PROD_THEME_NAME ++ [':']) (STAGING_THEME_NAME ++ [':']) content

/-- `main`, lines 402-407: the summary mode label. -/
def modeLabel (a : Args) : List Char :=
  if a.stage then "STAGING".toList
  else if a.promote then "PROMOTE TO PROD".toList
  else "PRODUCTION".toList

/-- `main`, lines 401-419: print the summary, then reload unless
`--no-reload` (the reload result is ignored). -/
def afterDeploy (a : Args) (w : World) (deployed : List (List Char))
    (evs : List Event) : Outcome × List Event :=
  let evs := evs ++ [Event.summary (modeLabel a) deployed]
  if a.no_reload then (Outcome.success, evs)
  else (Outcome.success, evs ++ (reload_yaml_config w a.token).2)

/-- `main`, lines 333-378 (the `--stage` branch of the `try` block).
`args.local` was validated before connecting, so its `read_text`
succeeds; `args.theme_local` was *not* validated in this branch, so its
`read_text` raises an uncaught `FileNotFoundError` when the file is
missing. -/
def stageBranch (a : Args) (w : World) (remote theme_remote : List Char) :
    Outcome × List Event :=
  let staging_dashboard_remote := stageDashboardRemote remote
  let staging_theme_remote := stageThemeRemote theme_remote
  let dashboard_content := dashboardTransform (w.readFile a.«local»)
  let b1 := if a.no_backup then [] else (backup_file w staging_dashboard_remote).2
  let d := deploy_content w dashboard_content staging_dashboard_remote
  if d.1 then
    if w.fileExists a.theme_local then
      let theme_content := themeTransform (w.readFile a.theme_local)
      let b2 := if a.no_backup then [] else (backup_file w staging_theme_remote).2
      let t := deploy_content w theme_content staging_theme_remote
      if t.1 then
        afterDeploy a w ["staging dashboard".toList, "staging theme".toList]
          (b1 ++ d.2 ++ b2 ++ t.2)
      else (Outcome.exited 1, b1 ++ d.2 ++ b2 ++ t.2)
    else (Outcome.crash, b1 ++ d.2)
  else (Outcome.exited 1, b1 ++ d.2)

/-- `main`, lines 380-399 (the production / `--promote` branch of the
`try` block). -/
def prodBranch (a : Args) (w : World) (remote theme_remote : List Char) :
    Outcome × List Event :=
  let b1 := if a.no_backup then [] else (backup_file w remote).2
  let d := deploy_file w a.«local» remote
  if d.1 then
    if a.theme || a.promote then
      let b2 := if a.no_backup then [] else (backup_file w theme_remote).2
      let t := deploy_file w a.theme_local theme_remote
      if t.1 then
        afterDeploy a w ["dashboard".toList, "theme".toList] (b1 ++ d.2 ++ b2 ++ t.2)
      else (Outcome.exited 1, b1 ++ d.2 ++ b2 ++ t.2)
    else afterDeploy a w ["dashboard".toList] (b1 ++ d.2)
  else (Outcome.exited 1, b1 ++ d.2)

/-- `main` of `deploy/deploy_dashboard.py`: auth validation, path
defaulting, eager local-file validation, connect, the `try` body, and the
`finally: deployer.disconnect()` (which also runs on `sys.exit` and on an
uncaught exception inside the `try`). -/
def main (a : Args) (w : World) : Outcome × List Event :=
  if !truthy a.key && !truthy a.password then (Outcome.exited 1, [])
  else
    let remote := resolvedRemote a
    let theme_remote := resolvedThemeRemote a
    if !w.fileExists a.«local» then (Outcome.exited 1, [])
    else if (a.theme || a.promote) && !w.fileExists a.theme_local then
      (Outcome.exited 1, [])
    else if !w.connectOk then (Outcome.exited 1, [Event.connect])
    else
      let body :=
        if a.stage then stageBranch a w remote theme_remote
        else prodBranch a w remote theme_remote
      (body.1, Event.connect :: body.2 ++ [Event.disconnect])

end Deploy

namespace Legacy

/-- `HomeAssistantDeployer.DEFAULT_DASHBOARDS_DIR` in the legacy
`deploy_dashboard.py`. -/
def DEFAULT_DASHBOARDS_DIR : List Char := "/config/lovelace".toList

/-- `HomeAssistantDeployer.DEFAULT_DASHBOARD_FILE` in the legacy script
(`ui-lovelace.yaml`, unlike the current script). -/
def DEFAULT_DASHBOARD_FILE : List Char := "ui-lovelace.yaml".toList

/-- The legacy script's own copy of the CLI fallback command list. -/
def fallbackCommands : List (List Char) :=
  ["hassio homeassistant reload core_config".toList,
   "sudo -u homeassistant -H /srv/homeassistant/bin/homeassistant --script reload_core_config".toList,
   "docker exec homeassistant homeassistant --script reload_core_config".toList]

/-- Parsed command-line arguments of the legacy `deploy_dashboard.py`. -/
structure Args where
  host : List Char
  user : List Char
  key : Option (List Char)
  password : Option (List Char)
  port : Nat
  «local» : List Char
  remote : Option (List Char)
  no_reload : Bool
  no_backup : Bool

/-- Legacy `deploy_dashboard` method: local existence re-check plus one
SFTP `put`. -/
def deploy_dashboard (w : World) (local_file remote_path : List Char) :
    Bool × List Event :=
  if w.fileExists local_file then
    (w.putOk local_file remote_path, [Event.putFile local_file remote_path])
  else (false, [])

/-- Legacy `backup_existing_dashboard`: same best-effort remote copy
command, status never inspected. -/
def backup_existing_dashboard (_w : World) (remote_path : List Char) :
    Bool × List Event :=
  (true, [Event.execCmd (backupShellCmd remote_path)])

/-- Legacy `reload_yaml_config`: no API attempt (the legacy script takes
no token); the CLI fallback loop, then the manual-reload instructions when
every command failed. -/
def reload_yaml_config (w : World) : Bool × List Event :=
  let r := tryCommands w fallbackCommands
  if r.1 then r else (false, r.2 ++ [Event.manualReloadHint])

/-- Legacy `main`, lines 216-217: default for `--remote`. -/
def resolvedRemote (a : Args) : List Char :=
  if truthy a.remote then a.remote.getD []
  else DEFAULT_DASHBOARDS_DIR ++ '/' :: DEFAULT_DASHBOARD_FILE

/-- Legacy `main`: auth validation, remote-path default, eager local-file
validation, connect, then backup / upload / reload inside `try`, with
`finally: deployer.disconnect()`. -/
def main (a : Args) (w : World) : Outcome × List Event :=
  if !truthy a.key && !truthy a.password then (Outcome.exited 1, [])
  else
    let remote := resolvedRemote a
    if !w.fileExists a.«local» then (Outcome.exited 1, [])
    else if !w.connectOk then (Outcome.exited 1, [Event.connect])
    else
      let body :=
        let b1 := if a.no_backup then [] else (backup_existing_dashboard w remote).2
        let d := deploy_dashboard w a.«local» remote
        if d.1 then
          if a.no_reload then (Outcome.success, b1 ++ d.2)
          else (Outcome.success, b1 ++ d.2 ++ (reload_yaml_config w).2)
        else (Outcome.exited 1, b1 ++ d.2)
      (body.1, Event.connect :: body.2 ++ [Event.disconnect])

end Legacy

/-! ### Lemmas about the string primitives -/

theorem startsWith_eq_true_iff {pat s : List Char} :
    startsWith pat s = true ↔ s.take pat.length = pat := by
  simp [startsWith]

theorem length_le_of_startsWith {pat s : List Char}
    (h : startsWith pat s = true) : pat.length ≤ s.length := by
  rw [startsWith_eq_true_iff] at h
  have := congrArg List.length h
  simp [List.length_take] at this
  omega

theorem startsWith_self_append (pat t : List Char) :
    startsWith pat (pat ++ t) = true := by
  rw [startsWith_eq_true_iff]
  exact List.take_left pat t

theorem startsWith_append_right {pat s : List Char} (t : List Char)
    (h : startsWith pat s = true) : startsWith pat (s ++ t) = true := by
  have hle := length_le_of_startsWith h
  rw [startsWith_eq_true_iff] at h ⊢
  rw [List.take_append_of_le_length hle, h]

theorem matchAt_zero (s pat : List Char) : matchAt s pat 0 = startsWith pat s := rfl

theorem matchAt_succ_cons (c : Char) (s pat : List Char) (j : Nat) :
    matchAt (c :: s) pat (j + 1) = matchAt s pat j := by
  simp [matchAt]

theorem occursB_of_startsWith {pat s : List Char}
    (h : startsWith pat s = true) : occursB pat s = true := by
  cases s <;> simp [occursB, h]

theorem occursB_cons_of {pat s : List Char} (c : Char)
    (h : occursB pat s = true) : occursB pat (c :: s) = true := by
  simp [occursB, h]

/-- `str.replace(pat, rep, 1)` replaces exactly the leftmost occurrence:
if no occurrence of `pat` begins strictly before position `pre.length`,
everything before and after the replaced block is copied verbatim. -/
theorem replFirst_split (pat rep : List Char) (hpat : pat ≠ []) :
    ∀ pre post : List Char,
      (∀ j, j < pre.length → matchAt (pre ++ pat ++ post) pat j = false) →
      replFirst pat rep (pre ++ pat ++ post) = pre ++ rep ++ post := by
  intro pre
  induction pre with
  | nil =>
    intro post _
    match pat, hpat with
    | c :: cs, _ =>
      have hs : startsWith (c :: cs) ((c :: cs) ++ post) = true :=
        startsWith_self_append _ _
      simp only [List.nil_append, List.cons_append] at *
      rw [replFirst]
      simp only [hs, if_true]
      rw [show (c :: (cs ++ post)) = (c :: cs) ++ post from rfl,
        List.drop_left' (by simp)]
  | cons c pre ih =>
    intro post h
    have h0 : startsWith pat (c :: (pre ++ (pat ++ post))) = false := by
      have := h 0 (by simp)
      simpa [matchAt, List.append_assoc] using this
    have hrec := ih post (fun j hj => by
      have := h (j + 1) (by simpa using Nat.succ_lt_succ hj)
      simpa [matchAt_succ_cons] using this)
    simp only [List.cons_append]
    rw [replFirst, if_neg (by simp [h0])]
    simpa using hrec

theorem replAllF_nil (pat rep : List Char) (n : Nat) :
    replAllF pat rep n [] = [] := by
  cases n <;> rfl

theorem replAllF_cons_match {pat : List Char} (rep : List Char) (n : Nat)
    {c : Char} {cs : List Char} (h : startsWith pat (c :: cs) = true) :
    replAllF pat rep (n + 1) (c :: cs)
      = rep ++ replAllF pat rep n (List.drop pat.length (c :: cs)) := by
  simp [replAllF, h]

theorem replAllF_cons_nomatch {pat : List Char} (rep : List Char) (n : Nat)
    {c : Char} {cs : List Char} (h : startsWith pat (c :: cs) = false) :
    replAllF pat rep (n + 1) (c :: cs) = c :: replAllF pat rep n cs := by
  simp [replAllF, h]

/-- For a non-empty pattern the scan consumes at least one character per
fuel unit, so any fuel of at least `s.length` gives the same result. -/
theorem replAllF_fuel {pat : List Char} (rep : List Char) (hpat : pat ≠ []) :
    ∀ n m s, s.length ≤ n → s.length ≤ m →
      replAllF pat rep n s = replAllF pat rep m s := by
  intro n
  induction n with
  | zero =>
    intro m s h1 _
    have : s = [] := List.length_eq_zero.mp (Nat.le_zero.mp h1)
    subst this
    simp [replAllF_nil]
  | succ n ih =>
    intro m s h1 h2
    cases s with
    | nil => simp [replAllF_nil]
    | cons c cs =>
      have hplen : 0 < pat.length := List.length_pos.mpr hpat
      match m, h2 with
      | m + 1, h2 =>
        cases hstart : startsWith pat (c :: cs) with
        | true =>
          rw [replAllF_cons_match rep n hstart, replAllF_cons_match rep m hstart]
          have hd : (List.drop pat.length (c :: cs)).length ≤ n := by
            simp only [List.length_drop, List.length_cons]
            simp only [List.length_cons] at h1
            omega
          have hd' : (List.drop pat.length (c :: cs)).length ≤ m := by
            simp only [List.length_drop, List.length_cons]
            simp only [List.length_cons] at h2
            omega
          rw [ih _ _ hd hd']
        | false =>
          rw [replAllF_cons_nomatch rep n hstart, replAllF_cons_nomatch rep m hstart]
          rw [ih m cs (by simp only [List.length_cons] at h1; omega)
            (by simp only [List.length_cons] at h2; omega)]

theorem replAll_nil (pat rep : List Char) : replAll pat rep [] = [] := rfl

theorem replAll_cons_match {pat : List Char} (rep : List Char) (hpat : pat ≠ [])
    {c : Char} {cs : List Char} (h : startsWith pat (c :: cs) = true) :
    replAll pat rep (c :: cs)
      = rep ++ replAll pat rep (List.drop pat.length (c :: cs)) := by
  show replAllF pat rep (c :: cs).length (c :: cs) = _
  rw [List.length_cons, replAllF_cons_match rep cs.length h]
  congr 1
  apply replAllF_fuel rep hpat
  · simp only [List.length_drop, List.length_cons]
    have : 0 < pat.length := List.length_pos.mpr hpat
    omega
  · exact Nat.le_refl _

theorem replAll_cons_nomatch {pat : List Char} (rep : List Char)
    {c : Char} {cs : List Char} (h : startsWith pat (c :: cs) = false) :
    replAll pat rep (c :: cs) = c :: replAll pat rep cs := by
  show replAllF pat rep (c :: cs).length (c :: cs) = _
  rw [List.length_cons, replAllF_cons_nomatch rep cs.length h]
  rfl

/-- Content with no occurrence of the (non-empty) pattern is returned
unchanged by `str.replace`. -/
theorem replAll_not_occurs {pat : List Char} (rep : List Char) :
    ∀ s, occursB pat s = false → replAll pat rep s = s := by
  intro s
  induction s with
  | nil => intro _; exact replAll_nil pat rep
  | cons c cs ih =>
    intro h
    rw [occursB, Bool.or_eq_false_iff] at h
    rw [replAll_cons_nomatch rep h.1, ih h.2]

/-- `str.replace` with unbounded count replaces the leftmost occurrence
and keeps scanning the remainder: there is no bound on the number of
replacements. -/
theorem replAll_split (pat rep : List Char) (hpat : pat ≠ []) :
    ∀ pre post : List Char,
      (∀ j, j < pre.length → matchAt (pre ++ pat ++ post) pat j = false) →
      replAll pat rep (pre ++ pat ++ post)
        = pre ++ rep ++ replAll pat rep post := by
  intro pre
  induction pre with
  | nil =>
    intro post _
    match pat, hpat with
    | c :: cs, hpat =>
      have hs : startsWith (c :: cs) ((c :: cs) ++ post) = true :=
        startsWith_self_append _ _
      simp only [List.nil_append, List.cons_append] at hs ⊢
      rw [replAll_cons_match rep hpat (by simpa using hs)]
      congr 1
      rw [show (c :: (cs ++ post)) = (c :: cs) ++ post from rfl,
        List.drop_left' (by simp)]
  | cons c pre ih =>
    intro post h
    have h0 : startsWith pat (c :: (pre ++ (pat ++ post))) = false := by
      have := h 0 (by simp)
      simpa [matchAt, List.append_assoc] using this
    have hrec := ih post (fun j hj => by
      have := h (j + 1) (by simpa using Nat.succ_lt_succ hj)
      simpa [matchAt_succ_cons] using this)
    simp only [List.cons_append]
    rw [replAll_cons_nomatch rep (by simpa [List.append_assoc] using h0)]
    simpa using hrec

/-- When the replacement is at least as long as the (non-empty) pattern,
`str.replace` never shortens the string. -/
theorem replAll_length_le {pat rep : List Char} (hpat : pat ≠ [])
    (hlen : pat.length ≤ rep.length) :
    ∀ n s, s.length ≤ n → s.length ≤ (replAll pat rep s).length := by
  intro n
  induction n with
  | zero =>
    intro s h1
    have : s = [] := List.length_eq_zero.mp (Nat.le_zero.mp h1)
    subst this
    simp [replAll_nil]
  | succ n ih =>
    intro s h1
    cases s with
    | nil => simp [replAll_nil]
    | cons c cs =>
      cases hstart : startsWith pat (c :: cs) with
      | true =>
        rw [replAll_cons_match rep hpat hstart]
        have hple : pat.length ≤ (c :: cs).length := length_le_of_startsWith hstart
        have htail := ih (List.drop pat.length (c :: cs)) (by
          simp only [List.length_drop, List.length_cons]
          simp only [List.length_cons] at h1
          have : 0 < pat.length := List.length_pos.mpr hpat
          omega)
        simp only [List.length_append, List.length_drop, List.length_cons] at htail ⊢
        simp only [List.length_cons] at hple
        omega
      | false =>
        rw [replAll_cons_nomatch rep hstart]
        have := ih cs (by simp only [List.length_cons] at h1; omega)
        simp only [List.length_cons]
        omega

/-- When the replacement is strictly longer than the (non-empty) pattern,
`str.replace` strictly lengthens any string in which the pattern occurs. -/
theorem replAll_length_lt {pat rep : List Char} (hpat : pat ≠ [])
    (hlen : pat.length < rep.length) :
    ∀ n s, s.length ≤ n → occursB pat s = true →
      s.length < (replAll pat rep s).length := by
  intro n
  induction n with
  | zero =>
    intro s h1 hocc
    have : s = [] := List.length_eq_zero.mp (Nat.le_zero.mp h1)
    subst this
    have hsw : startsWith pat ([] : List Char) = true := by simpa [occursB] using hocc
    have : pat = [] := List.length_eq_zero.mp (by simpa using length_le_of_startsWith hsw)
    exact absurd this hpat
  | succ n ih =>
    intro s h1 hocc
    cases s with
    | nil =>
      have hsw : startsWith pat ([] : List Char) = true := by simpa [occursB] using hocc
      have : pat = [] := List.length_eq_zero.mp (by simpa using length_le_of_startsWith hsw)
      exact absurd this hpat
    | cons c cs =>
      cases hstart : startsWith pat (c :: cs) with
      | true =>
        rw [replAll_cons_match rep hpat hstart]
        have hple : pat.length ≤ (c :: cs).length := length_le_of_startsWith hstart
        have htail := replAll_length_le hpat (Nat.le_of_lt hlen)
          (List.drop pat.length (c :: cs)).length _ (Nat.le_refl _)
        simp only [List.length_append, List.length_drop, List.length_cons] at htail ⊢
        simp only [List.length_cons] at hple
        omega
      | false =>
        rw [replAll_cons_nomatch rep hstart]
        rw [occursB, hstart, Bool.false_or] at hocc
        have := ih cs (by simp only [List.length_cons] at h1; omega) hocc
        simp only [List.length_cons]
        omega

/-- When the pattern is a prefix of the replacement, replacing keeps at
least one occurrence of the pattern in the result. -/
theorem replAll_occurs_of_occurs {pat rep : List Char} (hpat : pat ≠ [])
    (hpre : startsWith pat rep = true) :
    ∀ n s, s.length ≤ n → occursB pat s = true →
      occursB pat (replAll pat rep s) = true := by
  intro n
  induction n with
  | zero =>
    intro s h1 hocc
    have : s = [] := List.length_eq_zero.mp (Nat.le_zero.mp h1)
    subst this
    have hsw : startsWith pat ([] : List Char) = true := by simpa [occursB] using hocc
    have : pat = [] := List.length_eq_zero.mp (by simpa using length_le_of_startsWith hsw)
    exact absurd this hpat
  | succ n ih =>
    intro s h1 hocc
    cases s with
    | nil =>
      have hsw : startsWith pat ([] : List Char) = true := by simpa [occursB] using hocc
      have : pat = [] := List.length_eq_zero.mp (by simpa using length_le_of_startsWith hsw)
      exact absurd this hpat
    | cons c cs =>
      cases hstart : startsWith pat (c :: cs) with
      | true =>
        rw [replAll_cons_match rep hpat hstart]
        exact occursB_of_startsWith (startsWith_append_right _ hpre)
      | false =>
        rw [replAll_cons_nomatch rep hstart]
        rw [occursB, hstart, Bool.false_or] at hocc
        exact occursB_cons_of c (ih cs (by simp only [List.length_cons] at h1; omega) hocc)

/-- `lastIdx` really points at an occurrence: the suffix from the index
starts with the character. -/
theorem lastIdx_drop {c : Char} : ∀ {p : List Char} {i : Nat},
    lastIdx c p = some i → p.drop i = c :: p.drop (i + 1) := by
  intro p
  induction p with
  | nil => intro i h; simp [lastIdx] at h
  | cons x xs ih =>
    intro i h
    rw [lastIdx] at h
    cases hx : lastIdx c xs with
    | some j =>
      rw [hx] at h
      obtain rfl : i = j + 1 := by simpa using h.symm
      simpa [List.drop_succ_cons] using ih hx
    | none =>
      rw [hx] at h
      by_cases hxc : x = c
      · simp only [hxc, if_pos rfl] at h
        obtain rfl : i = 0 := by simpa using h.symm
        simp [hxc]
      · simp [hxc] at h

/-- The extension returned by `splitext` is either empty or begins with a
dot. -/
theorem splitext_snd_eta (p : List Char) :
    (splitext p).2 = [] ∨ (splitext p).2 = '.' :: (splitext p).2.tail := by
  rw [splitext]
  cases hd : lastIdx '.' p with
  | none => left; rfl
  | some d =>
    simp only
    split
    · right
      simp only
      rw [lastIdx_drop hd]
      rfl
    · left; rfl

/-! ### Claim theorems: content transformation -/

/-- C3: under Stage mode the theme transformation replaces exactly the
first occurrence of the production identifier followed by a colon with the
staging identifier followed by a colon; everything before the match (in
particular any bare occurrence of the production identifier without a
colon) and everything after it (even further colon-suffixed occurrences)
is copied verbatim. -/
theorem c3_theme_first_occurrence_only (pre post : List Char)
    (hfirst : ∀ j, j < pre.length →
      matchAt (pre ++ (Deploy.PROD_THEME_NAME ++ [':']) ++ post)
        (Deploy.PROD_THEME_NAME ++ [':']) j = false) :
    Deploy.themeTransform (pre ++ (Deploy.PROD_THEME_NAME ++ [':']) ++ post)
      = pre ++ (Deploy.STAGING_THEME_NAME ++ [':']) ++ post := by
  unfold Deploy.themeTransform
  exact replFirst_split _ _ (by decide) pre post hfirst

/-- C3 witness: a theme file whose comment line holds the bare production
identifier and whose tail holds a second colon-suffixed occurrence; only
the first colon-suffixed occurrence is rewritten. -/
theorem c3_theme_first_occurrence_only_witness :
    Deploy.themeTransform ("# My Dashboard Theme notes\n".toList ++
        (Deploy.PROD_THEME_NAME ++ [':']) ++ " dark\nMy Dashboard Theme: light\n".toList)
      = "# My Dashboard Theme notes\n".toList ++
        (Deploy.STAGING_THEME_NAME ++ [':']) ++ " dark\nMy Dashboard Theme: light\n".toList :=
  c3_theme_first_occurrence_only _ _ (by decide)

/-- C4: under Stage mode the dashboard transformation replaces every
occurrence of the production identifier with the staging identifier
(content with no occurrence passes through unchanged, and at each leftmost
occurrence the replacement recurses into the whole remainder, so there is
no bound on the number of replacements). -/
theorem c4_dashboard_replace_all :
    (∀ s : List Char, occursB Deploy.PROD_THEME_NAME s = false →
        Deploy.dashboardTransform s = s) ∧
    (∀ pre post : List Char,
        (∀ j, j < pre.length →
          matchAt (pre ++ Deploy.PROD_THEME_NAME ++ post)
            Deploy.PROD_THEME_NAME j = false) →
        Deploy.dashboardTransform (pre ++ Deploy.PROD_THEME_NAME ++ post)
          = pre ++ Deploy.STAGING_THEME_NAME ++ Deploy.dashboardTransform post) := by
  constructor
  · intro s h
    unfold Deploy.dashboardTransform
    exact replAll_not_occurs _ s h
  · intro pre post h
    unfold Deploy.dashboardTransform
    exact replAll_split _ _ (by decide) pre post h

/-- C4 witness: marker-free content is unchanged; content with the marker
has it replaced and the remainder (holding a further occurrence) is
transformed in turn. -/
theorem c4_dashboard_replace_all_witness :
    Deploy.dashboardTransform "views: []\n".toList = "views: []\n".toList ∧
    Deploy.dashboardTransform ("theme: ".toList ++ Deploy.PROD_THEME_NAME ++
        "\nalso: My Dashboard Theme\n".toList)
      = "theme: ".toList ++ Deploy.STAGING_THEME_NAME ++
        Deploy.dashboardTransform "\nalso: My Dashboard Theme\n".toList :=
  ⟨c4_dashboard_replace_all.1 _ (by decide),
   c4_dashboard_replace_all.2 _ _ (by decide)⟩

/-- C10: the staging identifier has the production identifier as a proper
prefix, so the dashboard transformation is not idempotent: on any content
holding at least one occurrence of the production identifier, applying it
twice differs from applying it once. -/
theorem c10_not_idempotent :
    (startsWith Deploy.PROD_THEME_NAME Deploy.STAGING_THEME_NAME = true ∧
      Deploy.PROD_THEME_NAME ≠ Deploy.STAGING_THEME_NAME) ∧
    ∀ s : List Char, occursB Deploy.PROD_THEME_NAME s = true →
      Deploy.dashboardTransform (Deploy.dashboardTransform s)
        ≠ Deploy.dashboardTransform s := by
  refine ⟨⟨by decide, by decide⟩, ?_⟩
  intro s hocc
  have hpat : Deploy.PROD_THEME_NAME ≠ [] := by decide
  have hlt : Deploy.PROD_THEME_NAME.length < Deploy.STAGING_THEME_NAME.length := by
    decide
  have hocc2 : occursB Deploy.PROD_THEME_NAME (Deploy.dashboardTransform s) = true := by
    unfold Deploy.dashboardTransform
    exact replAll_occurs_of_occurs hpat (by decide) s.length s (Nat.le_refl _) hocc
  have hlen : (Deploy.dashboardTransform s).length
      < (Deploy.dashboardTransform (Deploy.dashboardTransform s)).length := by
    conv_lhs => rw [show Deploy.dashboardTransform s
      = replAll Deploy.PROD_THEME_NAME Deploy.STAGING_THEME_NAME s from rfl]
    unfold Deploy.dashboardTransform
    exact replAll_length_lt hpat hlt _ _ (Nat.le_refl _) hocc2
  intro heq
  rw [heq] at hlen
  exact Nat.lt_irrefl _ hlen

/-- C10 witness: a dashboard line holding the production identifier;
the transformation applied twice differs from applying it once. -/
theorem c10_not_idempotent_witness :
    occursB Deploy.PROD_THEME_NAME "theme: My Dashboard Theme\n".toList = true ∧
    Deploy.dashboardTransform (Deploy.dashboardTransform "theme: My Dashboard Theme\n".toList)
      ≠ Deploy.dashboardTransform "theme: My Dashboard Theme\n".toList :=
  ⟨by decide, c10_not_idempotent.2 _ (by decide)⟩

/-! ### Claim theorems: staging path derivation -/

/-- C1: the staging remote path splits the production remote path into
(directory, stem, extension) and yields `directory/stem-staging.extension`
when there is an extension, `directory/stem-staging` when there is none;
the extension returned by `splitext` carries its leading dot, and the very
same derivation is applied (independently) to the theme remote path. -/
theorem c1_staging_path_derivation (P : List Char) :
    ((splitext (basename P)).2 ≠ [] →
      Deploy.stageDashboardRemote P
        = dirname P ++ '/' :: ((splitext (basename P)).1 ++ "-staging".toList
            ++ '.' :: (splitext (basename P)).2.tail) ∧
      (splitext (basename P)).2 = '.' :: (splitext (basename P)).2.tail) ∧
    ((splitext (basename P)).2 = [] →
      Deploy.stageDashboardRemote P
        = dirname P ++ '/' :: ((splitext (basename P)).1 ++ "-staging".toList)) ∧
    Deploy.stageThemeRemote P = Deploy.stageDashboardRemote P := by
  refine ⟨?_, ?_, rfl⟩
  · intro hne
    have hdot : (splitext (basename P)).2 = '.' :: (splitext (basename P)).2.tail := by
      rcases splitext_snd_eta (basename P) with h | h
      · exact absurd h hne
      · exact h
    constructor
    · simp only [Deploy.stageDashboardRemote]
      rw [← hdot]
    · exact hdot
  · intro hnil
    simp only [Deploy.stageDashboardRemote]
    rw [hnil, List.append_nil]

/-- C1 witness: the default dashboard path (with extension) and an
extensionless path, both instantiating the respective case. -/
theorem c1_staging_path_derivation_witness :
    (Deploy.stageDashboardRemote "/config/lovelace/my-dashboard.yaml".toList
        = dirname "/config/lovelace/my-dashboard.yaml".toList ++ '/' ::
            ((splitext (basename "/config/lovelace/my-dashboard.yaml".toList)).1
              ++ "-staging".toList
              ++ '.' :: (splitext (basename "/config/lovelace/my-dashboard.yaml".toList)).2.tail) ∧
      (splitext (basename "/config/lovelace/my-dashboard.yaml".toList)).2
        = '.' :: (splitext (basename "/config/lovelace/my-dashboard.yaml".toList)).2.tail) ∧
    Deploy.stageDashboardRemote "/config/lovelace/dashboards".toList
      = dirname "/config/lovelace/dashboards".toList ++ '/' ::
          ((splitext (basename "/config/lovelace/dashboards".toList)).1 ++ "-staging".toList) :=
  ⟨(c1_staging_path_derivation _).1 (by decide),
   (c1_staging_path_derivation _).2.1 (by decide)⟩

/-! ### Claim theorems: reload strategy and auth validation -/

/-- Fixed world for concrete witnesses: every file exists, connecting and
uploading succeed, every remote command exits with status 1. -/
def wAllFail : World where
  fileExists := fun _ => true
  connectOk := true
  putOk := fun _ _ => true
  putContentOk := fun _ _ => true
  readFile := fun _ => []
  execExit := fun _ => 1

/-- C7: the reload strategy tries the administrative HTTP call first
exactly when a token is supplied; when that call exits 0 the
browser-refresh call is issued and the outcome is success no matter how
the browser-refresh call exits; otherwise (and when no token is supplied)
the three fixed fallback commands run in order, stopping at the first zero
exit status, with the manual-reload hint printed only when all fail. -/
theorem c7_reload_strategy (w : World) (t : List Char) (ht : t ≠ []) :
    Deploy.reload_yaml_config w none = Deploy.cliFallbackOutcome w ∧
    Deploy.reload_yaml_config w (some t)
      = (if w.execExit (Deploy.apiReloadCmd t) = 0 then
          (true, [Event.execCmd (Deploy.apiReloadCmd t),
                  Event.execCmd (Deploy.browserRefreshCmd t)])
        else ((Deploy.cliFallbackOutcome w).1,
          Event.execCmd (Deploy.apiReloadCmd t) :: (Deploy.cliFallbackOutcome w).2)) ∧
    Deploy.cliFallbackOutcome w
      = (if w.execExit Deploy.cmdHassio = 0 then
          (true, [Event.execCmd Deploy.cmdHassio])
        else if w.execExit Deploy.cmdSudo = 0 then
          (true, [Event.execCmd Deploy.cmdHassio, Event.execCmd Deploy.cmdSudo])
        else if w.execExit Deploy.cmdDocker = 0 then
          (true, [Event.execCmd Deploy.cmdHassio, Event.execCmd Deploy.cmdSudo,
                  Event.execCmd Deploy.cmdDocker])
        else (false, [Event.execCmd Deploy.cmdHassio, Event.execCmd Deploy.cmdSudo,
                  Event.execCmd Deploy.cmdDocker, Event.manualReloadHint])) := by
  have htt : truthy (some t) = true := by
    cases t with
    | nil => exact absurd rfl ht
    | cons a l => rfl
  refine ⟨rfl, ?_, ?_⟩
  · simp only [Deploy.reload_yaml_config, Deploy._browser_refresh, htt, if_true,
      Option.getD_some]
  · simp only [Deploy.cliFallbackOutcome, Deploy.fallbackCommands, tryCommands]
    split_ifs <;> simp_all

/-- C7 witness: with the token `TOK` and every remote command failing, the
run falls from the API attempt into the fallback chain. -/
theorem c7_reload_strategy_witness :
    Deploy.reload_yaml_config wAllFail (some "TOK".toList)
      = ((Deploy.cliFallbackOutcome wAllFail).1,
         Event.execCmd (Deploy.apiReloadCmd "TOK".toList)
           :: (Deploy.cliFallbackOutcome wAllFail).2) := by
  have h := c7_reload_strategy wAllFail "TOK".toList (by decide)
  rw [h.2.1]
  simp [wAllFail]

/-- C8: with neither a key nor a password supplied, the run exits with
status 1 and an empty trace — no network call of any kind occurs. -/
theorem c8_auth_required_before_network (a : Deploy.Args) (w : World)
    (hk : a.key = none) (hp : a.password = none) :
    Deploy.main a w = (Outcome.exited 1, []) := by
  unfold Deploy.main
  rw [hk, hp]
  rfl

/-- Arguments with no credential at all, for the C8 witness. -/
def noAuthArgs : Deploy.Args where
  host := "h".toList
  user := "u".toList
  key := none
  password := none
  port := 22
  «local» := "my-dashboard.yaml".toList
  remote := none
  theme := false
  theme_local := "themes/my_dashboard_theme.yaml".toList
  theme_remote := none
  stage := false
  promote := false
  token := none
  no_reload := false
  no_backup := false

/-- C8 witness: the concrete credential-free invocation exits 1 with an
empty trace. -/
theorem c8_auth_required_before_network_witness :
    Deploy.main noAuthArgs wAllFail = (Outcome.exited 1, []) :=
  c8_auth_required_before_network noAuthArgs wAllFail rfl rfl

/-! ### Claim theorems: workflow behaviour -/

/-- Arguments for a `--stage` run (no `--theme`, no `--promote`) whose
local theme file is missing. -/
def stageArgsNoTheme : Deploy.Args where
  host := "h".toList
  user := "u".toList
  key := some "k".toList
  password := none
  port := 22
  «local» := "my-dashboard.yaml".toList
  remote := some "/config/lovelace/d.yaml".toList
  theme := false
  theme_local := "themes/missing.yaml".toList
  theme_remote := some "/config/themes/t.yaml".toList
  stage := true
  promote := false
  token := none
  no_reload := false
  no_backup := true

/-- World in which every local file except `themes/missing.yaml` exists
and all remote operations succeed (commands exit 0). -/
def wNoThemeFile : World where
  fileExists := fun p => !(p == "themes/missing.yaml".toList)
  connectOk := true
  putOk := fun _ _ => true
  putContentOk := fun _ _ => true
  readFile := fun _ => "views:\n".toList
  execExit := fun _ => 0

/-- C2: a Stage-mode run deploys the theme unconditionally, yet the eager
pre-connection validation only checks the theme's local path under
`--theme` or `--promote`.  With `--stage` and a missing local theme file
the run connects (and even uploads the dashboard) before crashing on the
theme read: the required-artifact check does not happen before the
connection attempt, contradicting the fail-fast claim. -/
theorem c2_stage_missing_theme_connects_first :
    (Deploy.main stageArgsNoTheme wNoThemeFile).1 = Outcome.crash ∧
    Event.connect ∈ (Deploy.main stageArgsNoTheme wNoThemeFile).2 ∧
    (Deploy.main stageArgsNoTheme wNoThemeFile).2
      = [Event.connect,
         Event.putContent (Deploy.dashboardTransform "views:\n".toList)
           (Deploy.stageDashboardRemote "/config/lovelace/d.yaml".toList),
         Event.disconnect] := by
  refine ⟨rfl, ?_, rfl⟩
  decide

/-- The remote path the dashboard upload targets, per mode. -/
def Deploy.dashTargetRemote (a : Deploy.Args) : List Char :=
  if a.stage then Deploy.stageDashboardRemote (Deploy.resolvedRemote a)
  else Deploy.resolvedRemote a

/-- The single upload attempt a run makes for the dashboard artifact,
per mode. -/
def Deploy.dashAttemptEvent (a : Deploy.Args) (w : World) : Event :=
  if a.stage then
    Event.putContent (Deploy.dashboardTransform (w.readFile a.«local»))
      (Deploy.stageDashboardRemote (Deploy.resolvedRemote a))
  else Event.putFile a.«local» (Deploy.resolvedRemote a)

/-- The run's dashboard upload is refused by the remote side. -/
def Deploy.dashboardUploadFails (a : Deploy.Args) (w : World) : Prop :=
  if a.stage then
    w.putContentOk (Deploy.dashboardTransform (w.readFile a.«local»))
      (Deploy.stageDashboardRemote (Deploy.resolvedRemote a)) = false
  else w.putOk a.«local» (Deploy.resolvedRemote a) = false

/-- C5: whenever the dashboard upload fails (in any mode), the run exits
with status 1 and its whole trace is: connect, the optional dashboard
backup command, the failed upload attempt, disconnect — so no theme backup
or upload is attempted, no reload command runs, and disconnect still
executes. -/
theorem c5_dashboard_upload_failure_aborts (a : Deploy.Args) (w : World)
    (hauth : (truthy a.key || truthy a.password) = true)
    (hdash : w.fileExists a.«local» = true)
    (htheme : (a.theme || a.promote) = true → w.fileExists a.theme_local = true)
    (hconn : w.connectOk = true)
    (hfail : Deploy.dashboardUploadFails a w) :
    Deploy.main a w
      = (Outcome.exited 1,
         Event.connect ::
           ((if a.no_backup then []
             else [Event.execCmd (backupShellCmd (Deploy.dashTargetRemote a))])
             ++ [Deploy.dashAttemptEvent a w, Event.disconnect])) := by
  have h1 : (!truthy a.key && !truthy a.password) = false := by
    cases hk : truthy a.key <;> cases hp : truthy a.password <;> simp_all
  have h2 : ((a.theme || a.promote) && !w.fileExists a.theme_local) = false := by
    cases htp : (a.theme || a.promote) with
    | false => simp
    | true => simp [htheme htp]
  unfold Deploy.dashboardUploadFails at hfail
  cases hstage : a.stage with
  | true =>
    rw [hstage] at hfail
    simp only [if_true] at hfail
    simp only [Deploy.main, Deploy.stageBranch, Deploy.deploy_content,
      Deploy.backup_file, Deploy.dashTargetRemote, Deploy.dashAttemptEvent,
      h1, h2, hdash, hconn, hstage, hfail]
    simp
  | false =>
    rw [hstage] at hfail
    simp only [if_false, Bool.false_eq_true] at hfail
    simp only [Deploy.main, Deploy.prodBranch, Deploy.deploy_file,
      Deploy.backup_file, Deploy.dashTargetRemote, Deploy.dashAttemptEvent,
      h1, h2, hdash, hconn, hstage, hfail]
    simp

/-- Production-mode arguments (key auth, no theme, backups and reload
enabled) for concrete witnesses. -/
def prodArgs : Deploy.Args where
  host := "h".toList
  user := "u".toList
  key := some "k".toList
  password := none
  port := 22
  «local» := "my-dashboard.yaml".toList
  remote := some "/config/lovelace/d.yaml".toList
  theme := false
  theme_local := "themes/my_dashboard_theme.yaml".toList
  theme_remote := none
  stage := false
  promote := false
  token := none
  no_reload := false
  no_backup := false

/-- World in which connecting works but every upload is refused. -/
def wUploadRefused : World where
  fileExists := fun _ => true
  connectOk := true
  putOk := fun _ _ => false
  putContentOk := fun _ _ => false
  readFile := fun _ => []
  execExit := fun _ => 0

/-- C5 witness: a production run whose dashboard upload is refused ends
with exit 1 and the trace connect, backup, failed attempt, disconnect. -/
theorem c5_dashboard_upload_failure_aborts_witness :
    Deploy.main prodArgs wUploadRefused
      = (Outcome.exited 1,
         Event.connect ::
           ((if prodArgs.no_backup then []
             else [Event.execCmd (backupShellCmd (Deploy.dashTargetRemote prodArgs))])
             ++ [Deploy.dashAttemptEvent prodArgs wUploadRefused, Event.disconnect])) :=
  c5_dashboard_upload_failure_aborts prodArgs wUploadRefused rfl rfl
    (fun _ => rfl) rfl (by simp [Deploy.dashboardUploadFails, prodArgs, wUploadRefused])

/-- The `deployed` list the summary line reports, per mode. -/
def Deploy.deployedList (a : Deploy.Args) : List (List Char) :=
  if a.stage then ["staging dashboard".toList, "staging theme".toList]
  else if a.theme || a.promote then ["dashboard".toList, "theme".toList]
  else ["dashboard".toList]

/-- When every remote command exits non-zero, any reload attempt ends in
the manual-reload instructions being printed. -/
theorem manualHint_mem_reload_of_all_fail (w : World) (tok : Option (List Char))
    (hexec : ∀ c, w.execExit c ≠ 0) :
    Event.manualReloadHint ∈ (Deploy.reload_yaml_config w tok).2 := by
  unfold Deploy.reload_yaml_config
  cases htok : truthy tok with
  | false =>
    simp [htok, Deploy.cliFallbackOutcome, Deploy.fallbackCommands, tryCommands, hexec]
  | true =>
    simp [htok, Deploy.cliFallbackOutcome, Deploy.fallbackCommands, tryCommands, hexec]

/-- C6: when every upload succeeds and reload is enabled, failure of every
reload attempt (API call and all fallback commands exit non-zero) leaves
the verdict untouched: the run ends in success (exit 0), the summary line
still reports the deployment, and the manual-reload instructions are
printed. -/
theorem c6_reload_failure_nonfatal (a : Deploy.Args) (w : World)
    (hauth : (truthy a.key || truthy a.password) = true)
    (hfiles : ∀ p, w.fileExists p = true)
    (hconn : w.connectOk = true)
    (hput : ∀ l r, w.putOk l r = true)
    (hputc : ∀ c r, w.putContentOk c r = true)
    (hnr : a.no_reload = false)
    (hexec : ∀ c, w.execExit c ≠ 0) :
    (Deploy.main a w).1 = Outcome.success ∧
    Event.manualReloadHint ∈ (Deploy.main a w).2 ∧
    Event.summary (Deploy.modeLabel a) (Deploy.deployedList a) ∈ (Deploy.main a w).2 := by
  have h1 : (!truthy a.key && !truthy a.password) = false := by
    cases hk : truthy a.key <;> cases hp : truthy a.password <;> simp_all
  have hhint := manualHint_mem_reload_of_all_fail w a.token hexec
  cases hstage : a.stage with
  | true =>
    simp only [Deploy.main, Deploy.stageBranch, Deploy.afterDeploy,
      Deploy.deploy_content, Deploy.backup_file, Deploy.deployedList,
      Deploy.modeLabel, h1, hconn, hstage, hnr, hfiles, hputc]
    cases hnb : a.no_backup <;>
      simp_all [List.mem_append]
  | false =>
    cases htp : (a.theme || a.promote) with
    | true =>
      simp only [Deploy.main, Deploy.prodBranch, Deploy.afterDeploy,
        Deploy.deploy_file, Deploy.backup_file, Deploy.deployedList,
        Deploy.modeLabel, h1, hconn, hstage, htp, hnr, hfiles, hput]
      cases hnb : a.no_backup <;>
        simp_all [List.mem_append]
    | false =>
      simp only [Deploy.main, Deploy.prodBranch, Deploy.afterDeploy,
        Deploy.deploy_file, Deploy.backup_file, Deploy.deployedList,
        Deploy.modeLabel, h1, hconn, hstage, htp, hnr, hfiles, hput]
      cases hnb : a.no_backup <;>
        simp_all [List.mem_append]

/-- C6 witness: a production run against a world whose every remote
command exits 1. -/
theorem c6_reload_failure_nonfatal_witness :
    (Deploy.main prodArgs wAllFail).1 = Outcome.success ∧
    Event.manualReloadHint ∈ (Deploy.main prodArgs wAllFail).2 ∧
    Event.summary (Deploy.modeLabel prodArgs) (Deploy.deployedList prodArgs)
      ∈ (Deploy.main prodArgs wAllFail).2 :=
  c6_reload_failure_nonfatal prodArgs wAllFail rfl (fun _ => rfl) rfl
    (fun _ _ => rfl) (fun _ _ => rfl) rfl (fun _ => Nat.one_ne_zero)

/-- Legacy-script arguments built from the shared explicit values. -/
def legacyArgsOf (host user k lcl rem : List Char) (pw : Option (List Char))
    (port : Nat) (nr nb : Bool) : Legacy.Args where
  host := host
  user := user
  key := some k
  password := pw
  port := port
  «local» := lcl
  remote := some rem
  no_reload := nr
  no_backup := nb

/-- Current-script arguments for a production run (no theme, no stage, no
promote, no token) built from the same shared explicit values. -/
def deployArgsOf (host user k lcl rem tl : List Char)
    (pw trm : Option (List Char)) (port : Nat) (nr nb : Bool) : Deploy.Args where
  host := host
  user := user
  key := some k
  password := pw
  port := port
  «local» := lcl
  remote := some rem
  theme := false
  theme_local := tl
  theme_remote := trm
  stage := false
  promote := false
  token := none
  no_reload := nr
  no_backup := nb

/-- C9: a production run of the current script with no theme and no token
performs exactly the legacy script's remote operations, in the same order
(same backup command string, same upload, same fallback reload commands),
and ends with the same outcome, for every world and every shared explicit
argument set (with a non-empty explicit remote path). -/
theorem c9_legacy_equivalence
    (host user k lcl rem tl : List Char) (pw trm : Option (List Char))
    (port : Nat) (nr nb : Bool) (w : World) (hrem : rem ≠ []) :
    (Legacy.main (legacyArgsOf host user k lcl rem pw port nr nb) w).1
      = (Deploy.main (deployArgsOf host user k lcl rem tl pw trm port nr nb) w).1 ∧
    (Legacy.main (legacyArgsOf host user k lcl rem pw port nr nb) w).2.filter
        Event.isRemoteOp
      = (Deploy.main (deployArgsOf host user k lcl rem tl pw trm port nr nb) w).2.filter
        Event.isRemoteOp := by
  have htr : truthy (some rem) = true := by
    cases rem with
    | nil => exact absurd rfl hrem
    | cons a l => rfl
  have hreload : Legacy.reload_yaml_config w = Deploy.reload_yaml_config w none := by
    unfold Legacy.reload_yaml_config Deploy.reload_yaml_config Deploy.cliFallbackOutcome
    rfl
  cases hau : (!truthy (some k) && !truthy pw) <;>
    cases hfe : w.fileExists lcl <;>
      cases hconn : w.connectOk <;>
        cases hup : w.putOk lcl rem <;>
          cases nb <;>
            cases nr <;>
              constructor <;>
                simp [Legacy.main, Deploy.main, legacyArgsOf, deployArgsOf,
                  Legacy.resolvedRemote, Deploy.resolvedRemote,
                  Legacy.deploy_dashboard, Deploy.deploy_file, Deploy.prodBranch,
                  Legacy.backup_existing_dashboard, Deploy.backup_file,
                  Deploy.afterDeploy, Deploy.modeLabel, hreload,
                  htr, hau, hfe, hconn, hup,
                  List.filter_append, Event.isRemoteOp]

/-- C9 witness: concrete shared arguments and a world with failing reload
commands; both scripts produce the same outcome and the same remote
operation sequence. -/
theorem c9_legacy_equivalence_witness :
    (Legacy.main (legacyArgsOf "h".toList "u".toList "k".toList
        "my-dashboard.yaml".toList "/config/lovelace/d.yaml".toList
        none 22 false false) wAllFail).1
      = (Deploy.main (deployArgsOf "h".toList "u".toList "k".toList
        "my-dashboard.yaml".toList "/config/lovelace/d.yaml".toList
        "themes/t.yaml".toList none none 22 false false) wAllFail).1 ∧
    (Legacy.main (legacyArgsOf "h".toList "u".toList "k".toList
        "my-dashboard.yaml".toList "/config/lovelace/d.yaml".toList
        none 22 false false) wAllFail).2.filter Event.isRemoteOp
      = (Deploy.main (deployArgsOf "h".toList "u".toList "k".toList
        "my-dashboard.yaml".toList "/config/lovelace/d.yaml".toList
        "themes/t.yaml".toList none none 22 false false) wAllFail).2.filter
        Event.isRemoteOp :=
  c9_legacy_equivalence "h".toList "u".toList "k".toList
    "my-dashboard.yaml".toList "/config/lovelace/d.yaml".toList
    "themes/t.yaml".toList none none 22 false false wAllFail (by decide)
